import Mathlib

/-!
Verification development for the stack-vm repository (stack-vm.c,
stack-vm-compiler.c, stack-vm.h).

The C sources are shallowly embedded as executable Lean definitions:

* C `double` values are modelled as exact rationals (`Rat`); the 8-byte
  native image of a double inside the bytecode stream is modelled as a
  tagged cell followed by 7 padding cells, so all instruction offsets
  match the C layout.
* Heap objects (`StringObject`, `Object`) live in an association list
  from numeric addresses to payloads carrying their `ref_count`; `malloc`
  never fails in the model (allocation failure is a fatal error the
  claims do not touch) and freed addresses are never reused.
* The recursive `gc_dec_ref`/`val_free` pair of stack-vm.c is modelled as
  a worklist loop (`gc_dec_work_f`) that processes pending decrements in
  the same depth-first order as the C recursion; its fuel argument is
  instantiated with a bound that covers every possible chain of frees.
* `fprintf(stderr, ...); exit(1)` sites become explicit error results
  (`RtErr` at run time, `CErr` at compile time); reads of memory the C
  program does not own (operand bytes past the buffer, dangling heap
  references) are mapped to the sentinel errors `badCell`/`danglingRef`.
* Loops whose termination depends on input (the parser can genuinely
  diverge, see parse_assignment) take an explicit fuel argument; running
  out of fuel is the distinct result `PRes.out` / `ExecRes.out`.
-/

/-! ### Values and the reference-counted heap (stack-vm.c, types) -/

/-- The `Value` tagged union of stack-vm.c: `VAL_NUMBER`, `VAL_STRING`,
`VAL_BOOLEAN`, `VAL_UNDEFINED`, `VAL_NULL`, `VAL_OBJECT`.  String and
object values hold the address of a heap entry. -/
inductive Value
  | number (q : Rat)
  | stringRef (a : Nat)
  | boolean (b : Bool)
  | undefined
  | null
  | objectRef (a : Nat)
deriving DecidableEq, Repr

/-- A heap payload together with its `ObjectHeader.ref_count`
(`StringObject` or `Object` in the C). -/
inductive HeapObj
  | str (refCount : Int) (chars : String)
  | obj (refCount : Int) (props : List (String × Value))
deriving DecidableEq, Repr

/-- The heap: an association list from addresses to live heap objects.
An address disappears from the list exactly when the C would `free` it. -/
abbrev Heap := List (Nat × HeapObj)

/-- The address held by a string/object value, if any. -/
def ref_addr : Value → Option Nat
  | .stringRef a => some a
  | .objectRef a => some a
  | _ => none

/-- Replace the payload stored at address `a` (in-place mutation of a
heap object in the C). -/
def heap_update (h : Heap) (a : Nat) (o : HeapObj) : Heap :=
  h.map (fun p => if p.1 = a then (a, o) else p)

/-- Drop the entry at address `a` (`free` in the C). -/
def heap_remove (h : Heap) (a : Nat) : Heap :=
  h.filter (fun p => p.1 ≠ a)

/-- `gc_inc_ref`: bump the reference count of the object at `a`. -/
def gc_inc_ref (h : Heap) (a : Nat) : Heap :=
  match List.lookup a h with
  | some (.str rc s) => heap_update h a (.str (rc + 1) s)
  | some (.obj rc ps) => heap_update h a (.obj (rc + 1) ps)
  | none => h

/-- Bump the reference count of the heap object held by `v`, if `v` is a
string or object (the `if (val.type == VAL_STRING || ...) gc_inc_ref`
idiom of stack-vm.c). -/
def gc_inc_val (h : Heap) (v : Value) : Heap :=
  match ref_addr v with
  | some a => gc_inc_ref h a
  | none => h

/-- Addresses referenced by an object's property values. -/
def hobj_prop_addrs (ps : List (String × Value)) : List Nat :=
  ps.filterMap (fun p => ref_addr p.2)

/-- Addresses referenced from a heap payload (strings reference nothing,
objects reference their property values). -/
def hobj_refs : HeapObj → List Nat
  | .str _ _ => []
  | .obj _ ps => hobj_prop_addrs ps

/-- Worklist form of `gc_dec_ref`/`val_free`: decrement each pending
address; when a count reaches 0 the entry is freed and (for objects) the
addresses held by its properties are prepended, which reproduces the
depth-first order of the recursive C `val_free` calls.  Fuel only limits
the loop formally; `gc_fuel` below always supplies enough. -/
def gc_dec_work_f : Nat → Heap → List Nat → Heap
  | 0, h, _ => h
  | _ + 1, h, [] => h
  | fuel + 1, h, a :: rest =>
    match List.lookup a h with
    | none => gc_dec_work_f fuel h rest
    | some (.str rc s) =>
      if rc - 1 = 0 then gc_dec_work_f fuel (heap_remove h a) rest
      else gc_dec_work_f fuel (heap_update h a (.str (rc - 1) s)) rest
    | some (.obj rc ps) =>
      if rc - 1 = 0 then
        gc_dec_work_f fuel (heap_remove h a) (hobj_prop_addrs ps ++ rest)
      else gc_dec_work_f fuel (heap_update h a (.obj (rc - 1) ps)) rest

/-- An upper bound on the total work a chain of frees can perform: one
step per live entry plus one per property reference, plus one for the
initial pending address. -/
def gc_fuel (h : Heap) : Nat :=
  h.foldl (fun acc p => acc + 1 + (hobj_refs p.2).length) 2

/-- `gc_dec_ref`: decrement the count at `a`, freeing (recursively, via
the worklist) when it reaches 0. -/
def gc_dec_ref (h : Heap) (a : Nat) : Heap :=
  gc_dec_work_f (gc_fuel h) h [a]

/-- `val_free`: release the heap reference held by a value (a no-op for
numbers, booleans, undefined and null). -/
def val_free_heap (h : Heap) (v : Value) : Heap :=
  match ref_addr v with
  | some a => gc_dec_ref h a
  | none => h

/-! ### Environments (stack-vm.c, `Env` and helpers) -/

/-- One `Env` frame: the parallel `names`/`values` arrays as an ordered
binding list (`var_count` is the list length). -/
abbrev Frame := List (String × Value)

/-- `MAX_VARS` from stack-vm.c. -/
def MAX_VARS : Nat := 32

/-- `MAX_PROPS` from stack-vm.h / stack-vm.c. -/
def MAX_PROPS : Nat := 64

/-- The linear scan of one frame's bindings (first match wins, matching
the C loop over `names[i]`). -/
def frame_lookup : Frame → String → Option Value
  | [], _ => none
  | (n, v) :: rest, name => if n = name then some v else frame_lookup rest name

/-- `env_get`: walk the scope chain outward; the first binding found is
returned with its reference count bumped; an unbound name yields
`Value.undefined` (no error). -/
def env_get : List Frame → String → Heap → Value × Heap
  | [], _, h => (.undefined, h)
  | f :: rest, name, h =>
    match frame_lookup f name with
    | some v => (v, gc_inc_val h v)
    | none => env_get rest name h

/-- Fatal run-time errors (each `fprintf(stderr, ...); exit(1)` site of
stack-vm.c), plus the sentinels `badCell`/`danglingRef` standing for
reads of memory the C program does not own. -/
inductive RtErr
  | stackOverflow
  | stackUnderflow
  | callOverflow
  | callUnderflow
  | undefinedVariable
  | addTypeMismatch
  | setPropNotObject
  | getPropNotObject
  | tooManyVars
  | tooManyProps
  | unknownOpcode
  | badCell
  | danglingRef
  | nullEnv
deriving DecidableEq, Repr

/-- The overwrite scan of `env_set`: if the name is bound in this frame,
release the old value, retain the new one and overwrite in place;
`none` means the name is not bound here. -/
def env_set_loop : Frame → String → Value → Heap → Option (Frame × Heap)
  | [], _, _, _ => none
  | (n, old) :: rest, name, v, h =>
    if n = name then some ((n, v) :: rest, gc_inc_val (val_free_heap h old) v)
    else
      match env_set_loop rest name v h with
      | some (rest', h') => some ((n, old) :: rest', h')
      | none => none

/-- `env_set`: overwrite an existing binding in this frame, or append a
new one (retaining the value), failing when `MAX_VARS` is reached. -/
def env_set (f : Frame) (name : String) (v : Value) (h : Heap) :
    Except RtErr (Frame × Heap) :=
  match env_set_loop f name v h with
  | some r => .ok r
  | none =>
    if f.length ≥ MAX_VARS then .error .tooManyVars
    else .ok (f ++ [(name, v)], gc_inc_val h v)

/-- `env_set(vm->current_env, ...)`: `OP_STORE_VAR` writes through the
head of the scope chain only.  An empty chain corresponds to the C
dereferencing a NULL `current_env` (impossible in the modelled runs). -/
def env_set_chain (envs : List Frame) (name : String) (v : Value) (h : Heap) :
    Except RtErr (List Frame × Heap) :=
  match envs with
  | [] => .error .nullEnv
  | f :: rest =>
    match env_set f name v h with
    | .ok (f', h') => .ok (f' :: rest, h')
    | .error e => .error e

/-- `free_env`: release every binding the frame owns, in index order. -/
def free_env (f : Frame) (h : Heap) : Heap :=
  f.foldl (fun h' p => val_free_heap h' p.2) h

/-! ### Textual forms of values -/

def textTrue : String := "true"

def textFalse : String := "false"

def textUndefined : String := "undefined"

def textNull : String := "null"

def textObject : String := "[object Object]"

/-- Decimal digits of a natural number. -/
def natText (n : Nat) : String := toString n

/-- Models `sprintf(num_str, "%.2f", x)`: the fixed two-decimal form of a
number (round to nearest over the exact rational; the claims never
depend on the exact digits, only on which conversion is used). -/
def fmtTwoDec (q : Rat) : String :=
  let cents : Int := round (q * 100)
  let n : Nat := cents.natAbs
  let frac : Nat := n % 100
  let s : String :=
    natText (n / 100) ++ "." ++ (if frac < 10 then "0" else "") ++ natText frac
  if cents < 0 then "-" ++ s else s

/-- Models `printf("%g", x)` in `OP_PRINT` (integers print without a
fractional part; the claims never depend on the exact digits). -/
def fmtG (q : Rat) : String :=
  if q.den = 1 then
    (if q.num < 0 then "-" else "") ++ natText q.num.natAbs
  else fmtTwoDec q

/-! ### Bytecode cells -/

/-- One byte of the bytecode stream.  `Cell.dbl` is the first of the 8
cells holding the native image of a C double (`emit_double` always emits
it followed by 7 `Cell.b 0` padding cells, so instruction offsets agree
with the C layout); reinterpreting other bytes as a double is not
modelled (the compiler never produces such bytecode). -/
inductive Cell
  | b (n : Nat)
  | dbl (q : Rat)
deriving DecidableEq, Repr

abbrev Bytecode := List Cell

def OP_PUSH_NUM : Nat := 0
def OP_PUSH_STR : Nat := 1
def OP_PUSH_BOOL : Nat := 2
def OP_PUSH_UNDEFINED : Nat := 3
def OP_PUSH_NULL : Nat := 4
def OP_PUSH_VAR : Nat := 5
def OP_STORE_VAR : Nat := 6
def OP_ADD : Nat := 7
def OP_CALL : Nat := 8
def OP_RET : Nat := 9
def OP_PRINT : Nat := 10
def OP_EXIT : Nat := 11
def OP_NEW_OBJECT : Nat := 12
def OP_SET_PROP : Nat := 13
def OP_GET_PROP : Nat := 14
def OP_PUSH_ENV : Nat := 15
def OP_POP_ENV : Nat := 16

/-- Read one plain byte of the stream (`none`: out of range, or a double
cell, i.e. a read the C performs on memory it should not interpret). -/
def bc_byte (bc : Bytecode) (i : Nat) : Option Nat :=
  match bc.get? i with
  | some (.b n) => some n
  | _ => none

/-- Read `len` consecutive plain bytes starting at `i`. -/
def bc_bytes : Bytecode → Nat → Nat → Option (List Nat)
  | _, _, 0 => some []
  | bc, i, len + 1 =>
    match bc_byte bc i with
    | some n =>
      match bc_bytes bc (i + 1) len with
      | some rest => some (n :: rest)
      | none => none
    | none => none

/-- Rebuild the C character buffer read by `memcpy(str, &bytecode[ip], len)`. -/
def bc_str (bc : Bytecode) (i : Nat) (len : Nat) : Option String :=
  match bc_bytes bc i len with
  | some ns => some (String.mk (ns.map Char.ofNat))
  | none => none

/-- Little-endian value of the 4 operand bytes of `OP_CALL` (the host is
little-endian; offsets in real bytecode stay far below 2^31, where the
C signed int and this Nat agree). -/
def le4 (b0 b1 b2 b3 : Nat) : Nat :=
  b0 + 256 * b1 + 65536 * b2 + 16777216 * b3

/-! ### The virtual machine (stack-vm.c, `StackVM` and `vm_execute`) -/

/-- `StackVM` plus the heap and the printed output.  `stack` and
`callStack` have their top at the head; `envs` is the scope chain with
the current environment at the head; `output` collects the textual form
of each value printed by `OP_PRINT` (the C wraps each one in a constant
prefix and newline). -/
structure VMState where
  stack : List Value
  envs : List Frame
  callStack : List Nat
  heap : Heap
  nextAddr : Nat
  output : List String
deriving DecidableEq, Repr

/-- `vm_init`: empty stacks and a single global environment. -/
def vm_init_state : VMState :=
  { stack := [], envs := [[]], callStack := [], heap := [], nextAddr := 0,
    output := [] }

/-- `vm_push`: overflow check at depth 64, then retain and push. -/
def vm_push (s : VMState) (v : Value) : Except RtErr VMState :=
  if s.stack.length ≥ 64 then .error .stackOverflow
  else .ok { s with stack := v :: s.stack, heap := gc_inc_val s.heap v }

/-- `vm_pop`: underflow check; the count is NOT decremented (ownership is
handed to the caller, which is the source of the leaks shown below). -/
def vm_pop (s : VMState) : Except RtErr (Value × VMState) :=
  match s.stack with
  | [] => .error .stackUnderflow
  | v :: rest => .ok (v, { s with stack := rest })

/-- `val_string` inside the VM: allocate a fresh string object with
`ref_count = 1`. -/
def val_string_new (s : VMState) (text : String) : Value × VMState :=
  (.stringRef s.nextAddr,
   { s with heap := (s.nextAddr, .str 1 text) :: s.heap,
            nextAddr := s.nextAddr + 1 })

/-- `val_object`: allocate a fresh empty object with `ref_count = 1`. -/
def val_object_new (s : VMState) : Value × VMState :=
  (.objectRef s.nextAddr,
   { s with heap := (s.nextAddr, .obj 1 []) :: s.heap,
            nextAddr := s.nextAddr + 1 })

/-- Value of a number, if the value is a number (`a.type == VAL_NUMBER`
plus the `a.data.number` read). -/
def num_of : Value → Option Rat
  | .number q => some q
  | _ => none

/-- Is the value a string? (`a.type == VAL_STRING`). -/
def is_string_v : Value → Bool
  | .stringRef _ => true
  | _ => false

/-- The conversion of one `OP_ADD` operand to text (stack-vm.c lines
510-556): strings use their heap characters, numbers the two-decimal
form, booleans/undefined/null their keywords, objects a fixed
placeholder.  `none` marks a dangling string reference (C undefined
behaviour). -/
def add_text (h : Heap) : Value → Option String
  | .stringRef a =>
    match List.lookup a h with
    | some (.str _ s) => some s
    | _ => none
  | .number q => some (fmtTwoDec q)
  | .boolean b => some (if b then textTrue else textFalse)
  | .undefined => some textUndefined
  | .null => some textNull
  | .objectRef _ => some textObject

/-- The string-coercion arm of `OP_ADD`: build both texts, allocate the
concatenation, push it, then `val_free(a); val_free(b)`. -/
def op_add_coerce (s : VMState) (a b : Value) : Except RtErr VMState :=
  if is_string_v a || is_string_v b then
    match add_text s.heap a, add_text s.heap b with
    | some ta, some tb =>
      let addr := s.nextAddr
      let s1 : VMState :=
        { s with heap := (addr, .str 1 (ta ++ tb)) :: s.heap,
                 nextAddr := addr + 1 }
      match vm_push s1 (.stringRef addr) with
      | .ok s2 =>
        .ok { s2 with heap := val_free_heap (val_free_heap s2.heap a) b }
      | .error e => .error e
    | _, _ => .error .danglingRef
  else .error .addTypeMismatch

/-- `OP_ADD`: pop `b`, pop `a`; numbers add, strings concatenate with
coercion, anything else is fatal. -/
def op_add (s : VMState) : Except RtErr VMState :=
  match vm_pop s with
  | .error e => .error e
  | .ok (b, s1) =>
    match vm_pop s1 with
    | .error e => .error e
    | .ok (a, s2) =>
      match num_of a with
      | some x =>
        match num_of b with
        | some y =>
          match vm_push s2 (.number (x + y)) with
          | .ok s3 =>
            .ok { s3 with heap := val_free_heap (val_free_heap s3.heap a) b }
          | .error e => .error e
        | none => op_add_coerce s2 a b
      | none => op_add_coerce s2 a b

/-- The property scan of `OP_GET_PROP`/`OP_SET_PROP` (first match). -/
def prop_lookup : List (String × Value) → String → Option Value
  | [], _ => none
  | (n, v) :: rest, name => if n = name then some v else prop_lookup rest name

/-- Overwrite the first property named `name`. -/
def prop_replace : List (String × Value) → String → Value → List (String × Value)
  | [], _, _ => []
  | (n, old) :: rest, name, v =>
    if n = name then (n, v) :: rest else (n, old) :: prop_replace rest name v

/-- `OP_GET_PROP`: pop the target; a non-object is fatal; a present
property is returned (count bumped), an absent one yields `undefined`;
the object reference is released and the result pushed. -/
def op_get_prop (name : String) (s : VMState) : Except RtErr VMState :=
  match vm_pop s with
  | .error e => .error e
  | .ok (objv, s1) =>
    match objv with
    | .objectRef a =>
      match List.lookup a s1.heap with
      | some (.obj _ ps) =>
        let result := (prop_lookup ps name).getD .undefined
        let h1 := gc_inc_val s1.heap result
        let h2 := val_free_heap h1 objv
        vm_push { s1 with heap := h2 } result
      | _ => .error .danglingRef
    | _ => .error .getPropNotObject

/-- `OP_SET_PROP`: pop the value then the object; a non-object target is
fatal; overwrite releases the old value; a new property checks
`MAX_PROPS`; the object is pushed back. -/
def op_set_prop (name : String) (s : VMState) : Except RtErr VMState :=
  match vm_pop s with
  | .error e => .error e
  | .ok (value, s1) =>
    match vm_pop s1 with
    | .error e => .error e
    | .ok (objv, s2) =>
      match objv with
      | .objectRef a =>
        match List.lookup a s2.heap with
        | some (.obj rc ps) =>
          match prop_lookup ps name with
          | none =>
            if ps.length ≥ MAX_PROPS then .error .tooManyProps
            else
              let h1 := gc_inc_val s2.heap value
              let h2 := heap_update h1 a (.obj rc (ps ++ [(name, value)]))
              vm_push { s2 with heap := h2 } objv
          | some old =>
            let h1 := val_free_heap s2.heap old
            let h2 := gc_inc_val h1 value
            let h3 := heap_update h2 a (.obj rc (prop_replace ps name value))
            vm_push { s2 with heap := h3 } objv
        | _ => .error .danglingRef
      | _ => .error .setPropNotObject

/-- `OP_PUSH_VAR`: `env_get`, then a fatal error when the result is
undefined (which covers both unbound names and names bound to the value
`undefined`), else push. -/
def op_push_var (name : String) (s : VMState) : Except RtErr VMState :=
  let r := env_get s.envs name s.heap
  if r.1 = Value.undefined then .error .undefinedVariable
  else vm_push { s with heap := r.2 } r.1

/-- `OP_STORE_VAR`: pop the value and bind it in the current (head)
environment via `env_set`. -/
def op_store_var (name : String) (s : VMState) : Except RtErr VMState :=
  match vm_pop s with
  | .error e => .error e
  | .ok (v, s1) =>
    match env_set_chain s1.envs name v s1.heap with
    | .ok (envs', h') => .ok { s1 with envs := envs', heap := h' }
    | .error e => .error e

/-- The textual form written by `OP_PRINT` for each value type. -/
def print_text (h : Heap) : Value → Option String
  | .number q => some (fmtG q)
  | .stringRef a =>
    match List.lookup a h with
    | some (.str _ s) => some s
    | _ => none
  | .boolean b => some (if b then textTrue else textFalse)
  | .undefined => some textUndefined
  | .null => some textNull
  | .objectRef _ => some textObject

/-- `OP_PRINT`: pop, write the textual form, release. -/
def op_print (s : VMState) : Except RtErr VMState :=
  match vm_pop s with
  | .error e => .error e
  | .ok (v, s1) =>
    match print_text s1.heap v with
    | some t =>
      .ok { s1 with output := s1.output ++ [t], heap := val_free_heap s1.heap v }
    | none => .error .danglingRef

/-- Result of `vm_execute`: `done s viaExit` is a normal return (`true`
when `OP_EXIT` was executed, `false` when `ip` ran off the end of the
buffer), `fatal` is an `exit(1)`, `out` is fuel exhaustion. -/
inductive ExecRes
  | done (s : VMState) (viaExit : Bool)
  | fatal (e : RtErr)
  | out
deriving DecidableEq, Repr

/-- `vm_execute`: the fetch-decode-execute loop.  `ip` points at the
next opcode; each case advances past its inline operands exactly as the
C does (including the extra skipped byte in `OP_CALL`). -/
def vm_exec : Nat → VMState → Bytecode → Nat → ExecRes
  | 0, _, _, _ => .out
  | fuel + 1, s, bc, ip =>
    if ip < bc.length then
      match bc_byte bc ip with
      | none => .fatal .badCell
      | some op =>
        let ip1 := ip + 1
        if op = OP_PUSH_NUM then
          match bc.get? ip1 with
          | some (.dbl q) =>
            match vm_push s (.number q) with
            | .ok s' => vm_exec fuel s' bc (ip1 + 8)
            | .error e => .fatal e
          | _ => .fatal .badCell
        else if op = OP_PUSH_STR then
          match bc_byte bc ip1 with
          | some len =>
            match bc_str bc (ip1 + 1) len with
            | some text =>
              let (v, s1) := val_string_new s text
              match vm_push s1 v with
              | .ok s' => vm_exec fuel s' bc (ip1 + 1 + len)
              | .error e => .fatal e
            | none => .fatal .badCell
          | none => .fatal .badCell
        else if op = OP_PUSH_BOOL then
          match bc_byte bc ip1 with
          | some n =>
            match vm_push s (.boolean (n ≠ 0)) with
            | .ok s' => vm_exec fuel s' bc (ip1 + 1)
            | .error e => .fatal e
          | none => .fatal .badCell
        else if op = OP_PUSH_UNDEFINED then
          match vm_push s .undefined with
          | .ok s' => vm_exec fuel s' bc ip1
          | .error e => .fatal e
        else if op = OP_PUSH_NULL then
          match vm_push s .null with
          | .ok s' => vm_exec fuel s' bc ip1
          | .error e => .fatal e
        else if op = OP_NEW_OBJECT then
          let (v, s1) := val_object_new s
          match vm_push s1 v with
          | .ok s' => vm_exec fuel s' bc ip1
          | .error e => .fatal e
        else if op = OP_SET_PROP then
          match bc_byte bc ip1 with
          | some len =>
            match bc_str bc (ip1 + 1) len with
            | some name =>
              match op_set_prop name s with
              | .ok s' => vm_exec fuel s' bc (ip1 + 1 + len)
              | .error e => .fatal e
            | none => .fatal .badCell
          | none => .fatal .badCell
        else if op = OP_GET_PROP then
          match bc_byte bc ip1 with
          | some len =>
            match bc_str bc (ip1 + 1) len with
            | some name =>
              match op_get_prop name s with
              | .ok s' => vm_exec fuel s' bc (ip1 + 1 + len)
              | .error e => .fatal e
            | none => .fatal .badCell
          | none => .fatal .badCell
        else if op = OP_PUSH_VAR then
          match bc_byte bc ip1 with
          | some len =>
            match bc_str bc (ip1 + 1) len with
            | some name =>
              match op_push_var name s with
              | .ok s' => vm_exec fuel s' bc (ip1 + 1 + len)
              | .error e => .fatal e
            | none => .fatal .badCell
          | none => .fatal .badCell
        else if op = OP_STORE_VAR then
          match bc_byte bc ip1 with
          | some len =>
            match bc_str bc (ip1 + 1) len with
            | some name =>
              match op_store_var name s with
              | .ok s' => vm_exec fuel s' bc (ip1 + 1 + len)
              | .error e => .fatal e
            | none => .fatal .badCell
          | none => .fatal .badCell
        else if op = OP_PUSH_ENV then
          vm_exec fuel { s with envs := [] :: s.envs } bc ip1
        else if op = OP_POP_ENV then
          match s.envs with
          | old :: rest =>
            vm_exec fuel { s with envs := rest, heap := free_env old s.heap }
              bc ip1
          | [] => .fatal .nullEnv
        else if op = OP_ADD then
          match op_add s with
          | .ok s' => vm_exec fuel s' bc ip1
          | .error e => .fatal e
        else if op = OP_CALL then
          match bc_byte bc (ip1 + 1), bc_byte bc (ip1 + 2),
                bc_byte bc (ip1 + 3), bc_byte bc (ip1 + 4) with
          | some b0, some b1, some b2, some b3 =>
            let target := le4 b0 b1 b2 b3
            let ret := ip1 + 5
            if s.callStack.length ≥ 16 then .fatal .callOverflow
            else vm_exec fuel { s with callStack := ret :: s.callStack } bc target
          | _, _, _, _ => .fatal .badCell
        else if op = OP_RET then
          match s.callStack with
          | [] => .fatal .callUnderflow
          | r :: rest => vm_exec fuel { s with callStack := rest } bc r
        else if op = OP_PRINT then
          match op_print s with
          | .ok s' => vm_exec fuel s' bc ip1
          | .error e => .fatal e
        else if op = OP_EXIT then
          .done s true
        else .fatal .unknownOpcode
    else .done s false

/-- The `main` wrapper of stack-vm.c: run the bytecode, then
`free_env(vm.current_env)` (the current — normally global — environment);
the result is the heap of objects still live. -/
def run_and_teardown (fuel : Nat) (bc : Bytecode) : Option Heap :=
  match vm_exec fuel vm_init_state bc 0 with
  | .done s _ =>
    some (match s.envs with
          | e :: _ => free_env e s.heap
          | [] => s.heap)
  | _ => none

/-! ### The lexer (stack-vm-compiler.c) -/

def kwVar : String := "var"

def kwPrint : String := "print"

def kwFunction : String := "function"

def kwReturn : String := "return"

def emptyText : String := ""

/-- Token kinds of stack-vm-compiler.c (`TokenType`). -/
inductive TokenType
  | eof
  | number
  | string
  | boolean
  | undefinedT
  | nullT
  | identifier
  | operator
  | punctuator
  | keyword
deriving DecidableEq, Repr

/-- `Token`: kind, lexeme and source position.  The C lexeme buffer is
64 bytes (`MAX_TOKEN_LEN`); copying a longer run is undefined behaviour
there, the model simply keeps the full text (the claims only involve
short tokens). -/
structure Token where
  type : TokenType
  lexeme : String
  line : Nat
  col : Nat
deriving DecidableEq, Repr

/-- `Lexer`: the NUL-terminated source is a character list; reading at or
past the end yields `'\x00'` like the C terminator.  `current` is the
one-token lookahead stored inside the C `Lexer`. -/
structure Lexer where
  source : List Char
  pos : Nat
  line : Nat
  col : Nat
  current : Token
deriving DecidableEq, Repr

def is_whitespace (c : Char) : Bool :=
  c == ' ' || c == '\t' || c == '\n' || c == '\r'

def is_alpha (c : Char) : Bool :=
  decide ('a' ≤ c ∧ c ≤ 'z') || decide ('A' ≤ c ∧ c ≤ 'Z') || c == '_'

def is_digit (c : Char) : Bool :=
  decide ('0' ≤ c ∧ c ≤ '9')

def is_alnum (c : Char) : Bool :=
  is_alpha c || is_digit c || c == '_' || c == '$'

/-- `is_keyword`: the keyword index, `-1` for non-keywords. -/
def is_keyword (lexeme : String) : Int :=
  if lexeme = kwVar then 0
  else if lexeme = kwPrint then 1
  else if lexeme = kwFunction then 2
  else if lexeme = kwReturn then 3
  else -1

/-- `lexer_peek`: the character under the cursor (`'\x00'` at/past the
end of the source). -/
def lexer_peek (l : Lexer) : Char :=
  l.source.getD l.pos '\x00'

/-- `lexer_consume`: advance, tracking line/column. -/
def lexer_consume (l : Lexer) : Char × Lexer :=
  let c := lexer_peek l
  (c, { l with pos := l.pos + 1,
               line := if c = '\n' then l.line + 1 else l.line,
               col := if c = '\n' then 1 else l.col + 1 })

/-- The whitespace-consuming inner loop of `lexer_skip_whitespace`.
These scanning loops take a fuel argument so that they stay structurally
recursive (and hence kernel-computable); each wrapper supplies
`source.length + 1 - pos` fuel, which exceeds the characters left, and
every iteration consumes at least one character. -/
def swr_f : Nat → Lexer → Lexer
  | 0, l => l
  | f + 1, l =>
    if is_whitespace (lexer_peek l) then swr_f f (lexer_consume l).2 else l

def skip_ws_run (l : Lexer) : Lexer :=
  swr_f (l.source.length + 1 - l.pos) l

/-- The `//` comment loop: consume up to (not including) the newline or
the end of input. -/
def lc_f : Nat → Lexer → Lexer
  | 0, l => l
  | f + 1, l =>
    if lexer_peek l = '\n' ∨ lexer_peek l = '\x00' then l
    else lc_f f (lexer_consume l).2

def skip_line_comment (l : Lexer) : Lexer :=
  lc_f (l.source.length + 1 - l.pos) l

/-- The `/* ... */` loop: at `'\x00'` stop (unterminated comments are
silently abandoned); at `'*'` consume it and, if `'/'` follows, consume
that too and stop; otherwise keep scanning. -/
def bcm_f : Nat → Lexer → Lexer
  | 0, l => l
  | f + 1, l =>
    if lexer_peek l = '\x00' then l
    else if lexer_peek l = '*' then
      let l1 := (lexer_consume l).2
      if lexer_peek l1 = '/' then (lexer_consume l1).2
      else bcm_f f l1
    else bcm_f f (lexer_consume l).2

def skip_block_comment (l : Lexer) : Lexer :=
  bcm_f (l.source.length + 1 - l.pos) l

/-- The outer loop of `lexer_skip_whitespace`: skip whitespace; on `'/'`
consume it and dispatch on the next character (`'/'` line comment, `'*'`
block comment, otherwise put the `'/'` back and stop). -/
def lsw_f : Nat → Lexer → Lexer
  | 0, l => l
  | f + 1, l =>
    let l1 := skip_ws_run l
    if lexer_peek l1 = '/' then
      let l2 := (lexer_consume l1).2
      if lexer_peek l2 = '/' then lsw_f f (skip_line_comment l2)
      else if lexer_peek l2 = '*' then
        lsw_f f (skip_block_comment (lexer_consume l2).2)
      else { l2 with pos := l2.pos - 1, col := l2.col - 1 }
    else l1

def lexer_skip_whitespace (l : Lexer) : Lexer :=
  lsw_f (l.source.length + 1 - l.pos) l

/-- The slice `source[start..stop)` copied into a token lexeme. -/
def src_slice (src : List Char) (start stop : Nat) : String :=
  String.mk ((src.drop start).take (stop - start))

/-- The digit/dot run of `lexer_number` (no check that at most one dot
appears — the documented laxness). -/
def nrun_f : Nat → Lexer → Lexer
  | 0, l => l
  | f + 1, l =>
    if is_digit (lexer_peek l) || lexer_peek l == '.' then
      nrun_f f (lexer_consume l).2
    else l

def lexer_number (l : Lexer) : TokenType × String × Lexer :=
  let l' := nrun_f (l.source.length + 1 - l.pos) l
  (.number, src_slice l.source l.pos l'.pos, l')

/-- The string-body run of `lexer_string` (up to `'"'` or end). -/
def strrun_f : Nat → Lexer → Lexer
  | 0, l => l
  | f + 1, l =>
    if lexer_peek l = '"' ∨ lexer_peek l = '\x00' then l
    else strrun_f f (lexer_consume l).2

def lexer_string (l : Lexer) : TokenType × String × Lexer :=
  let l1 := (lexer_consume l).2
  let l2 := strrun_f (l1.source.length + 1 - l1.pos) l1
  (.string, src_slice l1.source l1.pos l2.pos, (lexer_consume l2).2)

/-- The identifier run of `lexer_identifier`. -/
def irun_f : Nat → Lexer → Lexer
  | 0, l => l
  | f + 1, l =>
    if is_alnum (lexer_peek l) then irun_f f (lexer_consume l).2 else l

def lexer_identifier (l : Lexer) : TokenType × String × Lexer :=
  let l' := irun_f (l.source.length + 1 - l.pos) l
  let lexeme := src_slice l.source l.pos l'.pos
  (if is_keyword lexeme ≠ -1 then .keyword else .identifier, lexeme, l')

/-- `lexer_next_token`: record the position, skip whitespace/comments and
dispatch on the next character exactly as the C switch does (including
consuming an unknown character as a one-character operator token). -/
def lexer_next_token (l : Lexer) : Token × Lexer :=
  let line0 := l.line
  let col0 := l.col
  let l1 := lexer_skip_whitespace l
  let c := lexer_peek l1
  if c = '\x00' then
    ({ type := .eof, lexeme := emptyText, line := line0, col := col0 }, l1)
  else if is_digit c then
    let (ty, lx, l2) := lexer_number l1
    ({ type := ty, lexeme := lx, line := line0, col := col0 }, l2)
  else if c = '"' then
    let (ty, lx, l2) := lexer_string l1
    ({ type := ty, lexeme := lx, line := line0, col := col0 }, l2)
  else if c = '+' ∨ c = '-' ∨ c = '*' ∨ c = '/' then
    let (ch, l2) := lexer_consume l1
    ({ type := .operator, lexeme := String.mk [ch], line := line0, col := col0 }, l2)
  else if c = '=' ∨ c = ';' ∨ c = '(' ∨ c = ')' ∨ c = '\x7b' ∨ c = '\x7d' ∨
          c = '.' ∨ c = ':' ∨ c = ',' then
    let (ch, l2) := lexer_consume l1
    ({ type := .punctuator, lexeme := String.mk [ch], line := line0, col := col0 }, l2)
  else if is_alpha c || c == '_' || c == '$' then
    let (ty, lx, l2) := lexer_identifier l1
    let ty2 : TokenType :=
      if lx = textTrue ∨ lx = textFalse then .boolean
      else if lx = textUndefined then .undefinedT
      else if lx = textNull then .nullT
      else ty
    ({ type := ty2, lexeme := lx, line := line0, col := col0 }, l2)
  else
    let (ch, l2) := lexer_consume l1
    ({ type := .operator, lexeme := String.mk [ch], line := line0, col := col0 }, l2)

/-! ### The parser / code generator (stack-vm-compiler.c) -/

/-- `Parser`: the lexer (with its lookahead token) plus the bytecode
emitted so far (`bc_pos` is the list length). -/
structure ParserSt where
  lexer : Lexer
  bytecode : List Cell
deriving DecidableEq, Repr

/-- Compile-time fatal errors (each `fprintf(stderr, ...); exit(1)` site
of stack-vm-compiler.c). -/
inductive CErr
  | missingRParen
  | unsupportedOperator
  | emptyOperator
  | badExprStart
  | propNameNotIdent
  | objColonMissing
  | objListBad
  | objPropName
  | varDeclName
  | printNoLParen
  | printNoRParen
  | unknownKeyword
  | strTooLong
  | bcOverflow
deriving DecidableEq, Repr

def MAX_BYTECODE_LEN : Nat := 512

/-- `lexer_next_token(parser->lexer, &parser->lexer->current)`. -/
def parser_advance (st : ParserSt) : ParserSt :=
  let r := lexer_next_token st.lexer
  { st with lexer := { r.2 with current := r.1 } }

/-- `lexer_init` (the `current` field is filled by `parser_init`). -/
def lexer_make (src : String) : Lexer :=
  { source := src.data, pos := 0, line := 1, col := 1,
    current := { type := .eof, lexeme := emptyText, line := 0, col := 0 } }

/-- `parser_init`: pre-read the first token. -/
def parser_init (src : String) : ParserSt :=
  parser_advance { lexer := lexer_make src, bytecode := [] }

def parser_check (st : ParserSt) (t : TokenType) : Bool :=
  st.lexer.current.type == t

def parser_check_keyword (st : ParserSt) (kw : String) : Bool :=
  parser_check st .keyword && st.lexer.current.lexeme == kw

def parser_match (st : ParserSt) (t : TokenType) : Bool × ParserSt :=
  if parser_check st t then (true, parser_advance st) else (false, st)

def parser_match_keyword (st : ParserSt) (kw : String) : Bool × ParserSt :=
  if parser_check_keyword st kw then (true, parser_advance st) else (false, st)

/-- `lexeme[0]` of the lookahead token (the C buffer is NUL-terminated,
so an empty lexeme reads as `'\x00'`). -/
def lexeme0 (st : ParserSt) : Char :=
  st.lexer.current.lexeme.data.getD 0 '\x00'

/-- `emit_byte` with its `MAX_BYTECODE_LEN` check. -/
def emit_byte (st : ParserSt) (b : Nat) : Except CErr ParserSt :=
  if st.bytecode.length ≥ MAX_BYTECODE_LEN then .error .bcOverflow
  else .ok { st with bytecode := st.bytecode ++ [.b b] }

/-- `emit_double`: the 8-byte native double image as one tagged cell
plus 7 padding cells. -/
def emit_double (st : ParserSt) (x : Rat) : Except CErr ParserSt :=
  if st.bytecode.length + 8 > MAX_BYTECODE_LEN then .error .bcOverflow
  else .ok { st with bytecode := st.bytecode ++ (.dbl x :: List.replicate 7 (.b 0)) }

/-- `emit_string`: a length byte (strings over 255 bytes are fatal)
followed by the raw characters. -/
def emit_string (st : ParserSt) (text : String) : Except CErr ParserSt :=
  if text.length > 255 then .error .strTooLong
  else if st.bytecode.length + 1 + text.length > MAX_BYTECODE_LEN then
    .error .bcOverflow
  else
    .ok { st with bytecode :=
            st.bytecode ++ (.b text.length :: text.data.map (fun c => .b c.toNat)) }

/-- Value of `atof` on a numeric lexeme: the leading `digits[.digits]`
prefix (a second dot stops the conversion, matching `atof` on the lax
lexemes the lexer produces). -/
def digits_val (l : List Char) : Nat :=
  l.foldl (fun acc c => acc * 10 + (c.toNat - 48)) 0

def atofQ (s : String) : Rat :=
  let cs := s.data
  let ip := cs.takeWhile is_digit
  match cs.drop ip.length with
  | '.' :: r2 =>
    let fp := r2.takeWhile is_digit
    (digits_val ip : Rat) + (digits_val fp : Rat) / ((10 : Rat) ^ fp.length)
  | _ => (digits_val ip : Rat)

/-- Result of a parsing function: success, a fatal diagnostic
(`exit(1)`), or fuel exhaustion (`out`, which models non-termination:
a computation that is `out` for every fuel never finishes). -/
inductive PRes
  | ok (st : ParserSt)
  | err (e : CErr)
  | out
deriving DecidableEq, Repr

def pbind (r : PRes) (f : ParserSt → PRes) : PRes :=
  match r with
  | .ok st => f st
  | .err e => .err e
  | .out => .out

def eres (r : Except CErr ParserSt) : PRes :=
  match r with
  | .ok st => .ok st
  | .error e => .err e

mutual

/-- `parse_primary`: number/string/boolean/undefined/null literals,
identifiers with `.prop` chains, parenthesized expressions (note the
check order of the closing parenthesis: `parser_match` consumes a
punctuator first and the lexeme test then looks at the FOLLOWING token —
this is the C code verbatim), and object literals. -/
def parse_primary : Nat → ParserSt → PRes
  | 0, _ => .out
  | fuel + 1, st =>
    if parser_check st .number then
      pbind (eres (emit_byte st OP_PUSH_NUM)) fun st1 =>
      pbind (eres (emit_double st1 (atofQ st.lexer.current.lexeme))) fun st2 =>
      .ok (parser_match st2 .number).2
    else if parser_check st .string then
      pbind (eres (emit_byte st OP_PUSH_STR)) fun st1 =>
      pbind (eres (emit_string st1 st.lexer.current.lexeme)) fun st2 =>
      .ok (parser_match st2 .string).2
    else if parser_check st .boolean then
      pbind (eres (emit_byte st OP_PUSH_BOOL)) fun st1 =>
      pbind (eres (emit_byte st1
          (if st.lexer.current.lexeme == textTrue then 1 else 0))) fun st2 =>
      .ok (parser_match st2 .boolean).2
    else if parser_check st .undefinedT then
      pbind (eres (emit_byte st OP_PUSH_UNDEFINED)) fun st1 =>
      .ok (parser_match st1 .undefinedT).2
    else if parser_check st .nullT then
      pbind (eres (emit_byte st OP_PUSH_NULL)) fun st1 =>
      .ok (parser_match st1 .nullT).2
    else if parser_check st .identifier then
      pbind (eres (emit_byte st OP_PUSH_VAR)) fun st1 =>
      pbind (eres (emit_string st1 st.lexer.current.lexeme)) fun st2 =>
      parse_primary_dots fuel (parser_match st2 .identifier).2
    else if parser_check st .punctuator && lexeme0 st == '(' then
      pbind (parse_expression fuel (parser_match st .punctuator).2) fun st2 =>
        let m := parser_match st2 .punctuator
        if !m.1 || lexeme0 m.2 != ')' then .err .missingRParen else .ok m.2
    else if parser_check st .punctuator && lexeme0 st == '\x7b' then
      pbind (eres (emit_byte (parser_match st .punctuator).2 OP_NEW_OBJECT))
        fun st1 =>
          if parser_check st1 .punctuator && lexeme0 st1 == '\x7d' then
            .ok (parser_match st1 .punctuator).2
          else parse_obj_props fuel st1
    else .err .badExprStart

/-- The `while ('.' identifier)` property-access loop after an
identifier in `parse_primary`. -/
def parse_primary_dots : Nat → ParserSt → PRes
  | 0, _ => .out
  | fuel + 1, st =>
    if parser_check st .punctuator && lexeme0 st == '.' then
      let st1 := (parser_match st .punctuator).2
      if parser_check st1 .identifier then
        pbind (eres (emit_byte st1 OP_GET_PROP)) fun st2 =>
        pbind (eres (emit_string st2 st1.lexer.current.lexeme)) fun st3 =>
        parse_primary_dots fuel (parser_match st3 .identifier).2
      else .err .propNameNotIdent
    else .ok st

/-- The `while(1)` property-list loop of an object literal. -/
def parse_obj_props : Nat → ParserSt → PRes
  | 0, _ => .out
  | fuel + 1, st =>
    if parser_check st .identifier then
      let propName := st.lexer.current.lexeme
      let st1 := (parser_match st .identifier).2
      if !(parser_check st1 .punctuator && lexeme0 st1 == ':') then
        .err .objColonMissing
      else
        pbind (parse_expression fuel (parser_match st1 .punctuator).2) fun st3 =>
        pbind (eres (emit_byte st3 OP_SET_PROP)) fun st4 =>
        pbind (eres (emit_string st4 propName)) fun st5 =>
          if parser_check st5 .punctuator && lexeme0 st5 == '\x7d' then
            .ok (parser_match st5 .punctuator).2
          else if parser_check st5 .punctuator && lexeme0 st5 == ',' then
            parse_obj_props fuel (parser_match st5 .punctuator).2
          else .err .objListBad
    else .err .objPropName

/-- `parse_expression`: one primary followed by the operator loop. -/
def parse_expression : Nat → ParserSt → PRes
  | 0, _ => .out
  | fuel + 1, st => pbind (parse_primary fuel st) (parse_expr_ops fuel)

/-- The `while (OPERATOR)` loop of `parse_expression`: only `'+'` emits
`OP_ADD`; any other operator is fatal. -/
def parse_expr_ops : Nat → ParserSt → PRes
  | 0, _ => .out
  | fuel + 1, st =>
    if parser_check st .operator then
      if st.lexer.current.lexeme.length = 0 then .err .emptyOperator
      else
        let op := lexeme0 st
        let st1 := (parser_match st .operator).2
        pbind (parse_primary fuel st1) fun st2 =>
          if op = '+' then
            pbind (eres (emit_byte st2 OP_ADD)) (parse_expr_ops fuel)
          else .err .unsupportedOperator
    else .ok st

end

/-- `parse_assignment`: variable assignment, property assignment,
bare variable/property reads — and, for any token that is NOT an
identifier, the function falls through doing nothing at all (no token is
consumed and no diagnostic is raised). -/
def parse_assignment : Nat → ParserSt → PRes
  | 0, _ => .out
  | fuel + 1, st =>
    if parser_check st .identifier then
      let varName := st.lexer.current.lexeme
      let st1 := (parser_match st .identifier).2
      if parser_check st1 .punctuator && lexeme0 st1 == '.' then
        let st2 := (parser_match st1 .punctuator).2
        if parser_check st2 .identifier then
          let propName := st2.lexer.current.lexeme
          let st3 := (parser_match st2 .identifier).2
          if parser_check st3 .punctuator && lexeme0 st3 == '=' then
            let st4 := (parser_match st3 .punctuator).2
            pbind (eres (emit_byte st4 OP_PUSH_VAR)) fun st5 =>
            pbind (eres (emit_string st5 varName)) fun st6 =>
            pbind (parse_expression fuel st6) fun st7 =>
            pbind (eres (emit_byte st7 OP_SET_PROP)) fun st8 =>
            eres (emit_string st8 propName)
          else
            pbind (eres (emit_byte st3 OP_PUSH_VAR)) fun st4 =>
            pbind (eres (emit_string st4 varName)) fun st5 =>
            pbind (eres (emit_byte st5 OP_GET_PROP)) fun st6 =>
            eres (emit_string st6 propName)
        else .err .propNameNotIdent
      else if parser_check st1 .punctuator && lexeme0 st1 == '=' then
        let st2 := (parser_match st1 .punctuator).2
        pbind (parse_expression fuel st2) fun st3 =>
        pbind (eres (emit_byte st3 OP_STORE_VAR)) fun st4 =>
        eres (emit_string st4 varName)
      else
        pbind (eres (emit_byte st1 OP_PUSH_VAR)) fun st2 =>
        eres (emit_string st2 varName)
    else .ok st

/-- `parse_var_declaration`: `var name (= expr)?`; a missing initializer
stores `undefined`. -/
def parse_var_declaration : Nat → ParserSt → PRes
  | 0, _ => .out
  | fuel + 1, st =>
    let st0 := (parser_match_keyword st kwVar).2
    if parser_check st0 .identifier then
      let varName := st0.lexer.current.lexeme
      let st1 := (parser_match st0 .identifier).2
      if parser_check st1 .punctuator && lexeme0 st1 == '=' then
        let st2 := (parser_match st1 .punctuator).2
        pbind (parse_expression fuel st2) fun st3 =>
        pbind (eres (emit_byte st3 OP_STORE_VAR)) fun st4 =>
        eres (emit_string st4 varName)
      else
        pbind (eres (emit_byte st1 OP_PUSH_UNDEFINED)) fun st2 =>
        pbind (eres (emit_byte st2 OP_STORE_VAR)) fun st3 =>
        eres (emit_string st3 varName)
    else .err .varDeclName

/-- `parse_print_statement`: `print ( expr )` then `OP_PRINT` (its
closing-parenthesis test checks before consuming, unlike the
parenthesized-expression branch of `parse_primary`). -/
def parse_print_statement : Nat → ParserSt → PRes
  | 0, _ => .out
  | fuel + 1, st =>
    let st0 := (parser_match_keyword st kwPrint).2
    if parser_check st0 .punctuator && lexeme0 st0 == '(' then
      let st1 := (parser_match st0 .punctuator).2
      pbind (parse_expression fuel st1) fun st2 =>
        if !(parser_check st2 .punctuator) || lexeme0 st2 != ')' then
          .err .printNoRParen
        else
          let st3 := (parser_match st2 .punctuator).2
          eres (emit_byte st3 OP_PRINT)
    else .err .printNoLParen

/-- The statement loop inside a block (`parse_block`); note that it
dispatches only on `var`/`print` keywords and falls back to
`parse_assignment` — exactly like the C, which does not recurse into
nested blocks here. -/
def parse_block_body : Nat → ParserSt → PRes
  | 0, _ => .out
  | fuel + 1, st =>
    if !(parser_check st .punctuator) || lexeme0 st != '\x7d' then
      pbind
        (if parser_check st .keyword then
          if parser_check_keyword st kwVar then parse_var_declaration fuel st
          else if parser_check_keyword st kwPrint then
            parse_print_statement fuel st
          else .err .unknownKeyword
        else parse_assignment fuel st)
        fun st1 => parse_block_body fuel (parser_match st1 .punctuator).2
    else .ok st

/-- `parse_block`: `{ statements }` bracketed by `OP_PUSH_ENV` and
`OP_POP_ENV`. -/
def parse_block : Nat → ParserSt → PRes
  | 0, _ => .out
  | fuel + 1, st =>
    if parser_check st .punctuator && lexeme0 st == '\x7b' then
      let st1 := (parser_match st .punctuator).2
      pbind (eres (emit_byte st1 OP_PUSH_ENV)) fun st2 =>
      pbind (parse_block_body fuel st2) fun st3 =>
      pbind (eres (emit_byte st3 OP_POP_ENV)) fun st4 =>
      .ok (parser_match st4 .punctuator).2
    else .ok st

/-- `parse_statement`: keyword statements, blocks, otherwise
`parse_assignment`. -/
def parse_statement : Nat → ParserSt → PRes
  | 0, _ => .out
  | fuel + 1, st =>
    if parser_check st .keyword then
      if parser_check_keyword st kwVar then parse_var_declaration fuel st
      else if parser_check_keyword st kwPrint then parse_print_statement fuel st
      else .err .unknownKeyword
    else if parser_check st .punctuator && lexeme0 st == '\x7b' then
      parse_block fuel st
    else parse_assignment fuel st

/-- `parse_program`: statements (separated by optional semicolons) until
end of input, then the final `OP_EXIT`. -/
def parse_program : Nat → ParserSt → PRes
  | 0, _ => .out
  | fuel + 1, st =>
    if parser_check st .eof then eres (emit_byte st OP_EXIT)
    else
      pbind (parse_statement fuel st) fun st1 =>
        parse_program fuel (parser_match st1 .punctuator).2

/-- `compile`: lex/parse the source and return the finished bytecode
state (the C then copies `parser.bytecode` into a fresh buffer). -/
def compileF (fuel : Nat) (source : String) : PRes :=
  parse_program fuel (parser_init source)

/-- Compile then execute, observing the print output and whether the run
halted through `OP_EXIT`. -/
def pipeline (fc fv : Nat) (source : String) : Option (List String × Bool) :=
  match compileF fc source with
  | .ok st =>
    match vm_exec fv vm_init_state st.bytecode 0 with
    | .done s viaExit => some (s.output, viaExit)
    | _ => none
  | _ => none

/-! ### Concrete programs and bytecode used by the claims -/

/-- `var x = ("a");` — a well-formed program with a parenthesized
expression. -/
def srcParen : String := "var x = (\"a\");"

/-- `42` — a statement beginning with a number token. -/
def srcNum : String := "42"

/-- `var a = "foo"; var b = "bar"; var c = a + b; print(c);`. -/
def srcConcat : String := "var a = \"foo\"; var b = \"bar\"; var c = a + b; print(c);"

/-- `var x = "10"; { var x = "20"; print(x); } print(x);` — the spec's
scope-shadowing example (string literals so that no double cells are
involved). -/
def srcShadow : String :=
  "var x = \x2210\x22; \x7b var x = \x2220\x22; print(x); \x7d print(x);"

def text10 : String := "10"

def text20 : String := "20"

def textFoobar : String := "foobar"

def textA : String := "a"

/-- `PUSH_ENV; PUSH_STR "a"; STORE_VAR x; POP_ENV; EXIT` — one scope
push/pop with one string creation bound in the scope (bytes 97/120 are
'a'/'x'). -/
def bcLeak : Bytecode :=
  [.b 15, .b 1, .b 1, .b 97, .b 6, .b 1, .b 120, .b 16, .b 11]

/-- A `CALL` at position 0 whose four operand bytes (positions 1..4 per
the instruction-format table) are 13,7,0,0, followed by `EXIT` opcodes
at positions 6 and 7. -/
def bcCall : Bytecode := [.b 8, .b 13, .b 7, .b 0, .b 0, .b 0, .b 11, .b 11]

/-! ### Claim theorems -/

/-- Claim C1 (code_bug): the claim says every well-formed program of the
supported grammar (which includes parenthesized expressions) compiles
and runs to EXIT; but compiling `var x = ("a");` aborts with the
missing-right-parenthesis diagnostic.  The closing-parenthesis check of
`parse_primary` (stack-vm-compiler.c lines 398-402) calls
`parser_match`, which consumes the `')'`, and then tests `lexeme[0]` of
the FOLLOWING token, so every balanced parenthesized expression that is
not immediately followed by another `')'` is rejected. -/
theorem c1_paren_compile_aborts :
    compileF 64 srcParen = PRes.err CErr.missingRParen := by decide

/-- Claim C2 (code_bug): the claim says the live heap count returns to
its pre-run baseline after the outermost scope is torn down.  Running
`PUSH_ENV; PUSH_STR "a"; STORE_VAR x; POP_ENV; EXIT` from the empty
baseline heap and then tearing down the current environment (as `main`
does) leaves one string object live with `ref_count = 2`: the creation
reference (`val_string` starts at 1) and the `vm_push` increment are
never matched by releases, because `vm_pop` hands the value over
without decrementing.  Live count 1 ≠ baseline 0. -/
theorem c2_leak_after_teardown :
    run_and_teardown 20 bcLeak = some [(0, HeapObj.str 2 textA)] ∧
    [(0, HeapObj.str 2 textA)].length ≠ 0 := by decide

/-- Claim C3 (code_bug): the claim (and the instruction-format comment in
stack-vm.c) says `OP_CALL` reads its operand from positions p+1..p+4 and
pushes p+5.  In `vm_execute`, `ip` has already been advanced past the
opcode when the operand is read at `&bytecode[ip + 1]`, so the operand
actually comes from p+2..p+5 and the pushed return address is p+6.  On
`bcCall` (operand bytes 13,7,0,0 at positions 1..4) the claim predicts a
jump to 13 + 256·7 = 1805 (off the end, return address 5); the code
instead jumps to 7 (the bytes at positions 2..5), executes the EXIT
there, and leaves return address 6 on the call stack. -/
theorem c3_call_reads_shifted_operand :
    vm_exec 10 vm_init_state bcCall 0 =
      ExecRes.done
        { stack := [], envs := [[]], callStack := [6], heap := [],
          nextAddr := 0, output := [] } true ∧
    le4 13 7 0 0 = 1805 := by decide

/-- Claim C8 (confirmed): compiling and executing
`var a = "foo"; var b = "bar"; var c = a + b; print(c);` succeeds,
halts through `OP_EXIT`, and prints exactly the text `foobar`. -/
theorem c8_concat_pipeline :
    pipeline 100 100 srcConcat = some ([textFoobar], true) := by decide

/-- On a statement that starts with a non-identifier (here the number
token of `42`), `parse_assignment` consumes nothing, emits nothing, and
raises no diagnostic. -/
lemma parse_assignment_num (k : Nat) :
    parse_assignment (k + 1) (parser_init srcNum) = PRes.ok (parser_init srcNum) := by
  rw [parse_assignment]
  have h : parser_check (parser_init srcNum) TokenType.identifier = false := by decide
  simp [h]

/-- Hence `parse_statement` leaves the parser state of `42` unchanged. -/
lemma parse_statement_num (k : Nat) :
    parse_statement (k + 2) (parser_init srcNum) = PRes.ok (parser_init srcNum) := by
  rw [show k + 2 = (k + 1) + 1 from rfl, parse_statement]
  have h1 : parser_check (parser_init srcNum) TokenType.keyword = false := by decide
  have h2 : (parser_check (parser_init srcNum) TokenType.punctuator &&
      lexeme0 (parser_init srcNum) == '\x7b') = false := by decide
  simp [h1, h2, parse_assignment_num]

/-- Claim C4 (code_bug): the claim says any unexpected token aborts
compilation immediately with a diagnostic and `compile` never fails to
terminate — in particular a statement beginning with a token that is
neither a keyword, `{`, nor an identifier must abort.  On the source
`42`, `parse_statement` falls through to `parse_assignment`, which
returns silently without consuming the number token, and the
`parse_program` loop makes no progress: compilation runs forever (for
every fuel the result is still `out`, never a bytecode buffer and never
a diagnostic). -/
theorem c4_compile_never_terminates : ∀ n, compileF n srcNum = PRes.out := by
  have key : ∀ m, parse_program m (parser_init srcNum) = PRes.out := by
    intro m
    induction m using Nat.strong_induction_on with
    | _ m ih =>
      match m with
      | 0 => rfl
      | 1 => decide
      | 2 => decide
      | (k + 3) =>
        rw [show k + 3 = (k + 2) + 1 from rfl, parse_program]
        have h1 : parser_check (parser_init srcNum) TokenType.eof = false := by decide
        have h2 : (parser_match (parser_init srcNum) TokenType.punctuator).2 =
            parser_init srcNum := by decide
        simp [h1, parse_statement_num, pbind, h2]
        exact ih (k + 2) (by omega)
  intro n
  exact key n

/-- Witness for C4 at fuel 5. -/
theorem c4_witness : compileF 5 srcNum = PRes.out :=
  c4_compile_never_terminates 5

/-- A sequence of `OP_STORE_VAR` effects: each element is the variable
name and the value the instruction pops, applied through
`env_set_chain` exactly as the `OP_STORE_VAR` case of `vm_execute`
applies them. -/
def store_seq : List (String × Value) → List Frame → Heap →
    Except RtErr (List Frame × Heap)
  | [], envs, h => .ok (envs, h)
  | (n, v) :: rest, envs, h =>
    match env_set_chain envs n v h with
    | .ok (envs', h') => store_seq rest envs' h'
    | .error e => .error e

/-- `env_set` only ever touches the head environment, so any store
sequence leaves the enclosing chain untouched. -/
lemma store_seq_head_only : ∀ (stores : List (String × Value)) (f : Frame)
    (rest : List Frame) (h : Heap) (envs' : List Frame) (h' : Heap),
    store_seq stores (f :: rest) h = .ok (envs', h') →
    ∃ f', envs' = f' :: rest := by
  intro stores
  induction stores with
  | nil =>
    intro f rest h envs' h' hrun
    simp [store_seq] at hrun
    exact ⟨f, hrun.1.symm⟩
  | cons p tl ih =>
    intro f rest h envs' h' hrun
    obtain ⟨n, v⟩ := p
    simp only [store_seq, env_set_chain] at hrun
    cases hset : env_set f n v h with
    | ok r =>
      obtain ⟨f1, h1⟩ := r
      rw [hset] at hrun
      simp at hrun
      exact ih f1 rest h1 envs' h' hrun
    | error e =>
      rw [hset] at hrun
      simp at hrun

def nameX : String := "x"

def nameY : String := "y"

def nameA : String := "a"

/-- Claim C6 (confirmed): after `OP_PUSH_ENV` (a fresh empty head
frame), any sequence of `OP_STORE_VAR` effects — for `x` or any other
names, bound outside or not — produces a chain whose tail is exactly the
original enclosing chain, so `OP_POP_ENV` restores the enclosing
environments verbatim and the enclosing binding of `x` still holds its
original value (stores shadow in the current frame, they never mutate an
outer frame).  Concretely, the spec's shadowing program prints `20` then
`10`. -/
theorem c6_store_var_scope (stores : List (String × Value)) (rest : List Frame)
    (h : Heap) (envs' : List Frame) (h' : Heap)
    (hrun : store_seq stores ([] :: rest) h = .ok (envs', h')) :
    (∃ f', envs' = f' :: rest) ∧
    pipeline 100 100 srcShadow = some ([text20, text10], true) :=
  ⟨store_seq_head_only stores [] rest h envs' h' hrun, by decide⟩

/-- Witness for C6: one store of `x` over an enclosing chain with one
empty global frame. -/
theorem c6_store_var_scope_witness :
    (∃ f', [[(nameX, Value.null)], []] = f' :: ([[]] : List Frame)) ∧
    pipeline 100 100 srcShadow = some ([text20, text10], true) :=
  c6_store_var_scope [(nameX, Value.null)] [[]] [] [[(nameX, Value.null)], []]
    [] rfl

/-- Claim C9 (confirmed): `env_get` itself never fails — a name bound in
no frame of the scope chain yields `Value.undefined` (with the heap
untouched); consequently the `OP_PUSH_VAR` handler aborts fatally
whenever `env_get` produces `undefined`, which covers both unbound names
and names bound to the stored value `undefined` (e.g. after `var x;`
with no initializer). -/
theorem c9_env_get_undefined (chain : List Frame) (h : Heap) (name : String)
    (hub : ∀ f ∈ chain, frame_lookup f name = none) :
    env_get chain name h = (Value.undefined, h) ∧
    ∀ s : VMState, (env_get s.envs name s.heap).1 = Value.undefined →
      op_push_var name s = .error RtErr.undefinedVariable := by
  constructor
  · induction chain with
    | nil => rfl
    | cons f rest ih =>
      have hf : frame_lookup f name = none := hub f (by simp)
      simp only [env_get, hf]
      exact ih (fun g hg => hub g (by simp [hg]))
  · intro s hget
    simp [op_push_var, hget]

/-- The state after `var x;`: `x` is bound in the global environment and
holds the value `undefined`. -/
def stateBoundUndef : VMState :=
  { stack := [], envs := [[(nameX, Value.undefined)]], callStack := [],
    heap := [], nextAddr := 0, output := [] }

/-- Witness for C9: an unbound name on the empty chain, and `PUSH_VAR`
aborting on a name bound to `undefined`. -/
theorem c9_env_get_undefined_witness :
    env_get ([] : List Frame) nameY [] = (Value.undefined, []) ∧
    op_push_var nameX stateBoundUndef = .error RtErr.undefinedVariable :=
  ⟨(c9_env_get_undefined [] [] nameY (by simp)).1,
   (c9_env_get_undefined [] [] nameY (by simp)).2 stateBoundUndef (by decide)⟩

/-- Claim C7 (confirmed): the `OP_GET_PROP` handler pops the top of the
operand stack; a non-object value is a fatal error; on an object it
pushes the named property's value when present and `Value.undefined`
when the property is unset. -/
theorem c7_get_prop (name : String) (s : VMState) (v : Value) (rest : List Value)
    (hs : s.stack = v :: rest) (hlen : s.stack.length ≤ 64) :
    ((∀ a, v ≠ Value.objectRef a) → ∃ e, op_get_prop name s = .error e) ∧
    (∀ a rc ps, v = Value.objectRef a →
      List.lookup a s.heap = some (HeapObj.obj rc ps) →
      ∃ s', op_get_prop name s = .ok s' ∧
        s'.stack = (prop_lookup ps name).getD Value.undefined :: rest) := by
  obtain ⟨stk, envs, cs, hp, na, out⟩ := s
  simp only at hs
  subst hs
  simp only [List.length_cons] at hlen
  constructor
  · intro hno
    cases v with
    | objectRef a => exact absurd rfl (hno a)
    | number q => exact ⟨RtErr.getPropNotObject, by simp [op_get_prop, vm_pop]⟩
    | stringRef a => exact ⟨RtErr.getPropNotObject, by simp [op_get_prop, vm_pop]⟩
    | boolean b => exact ⟨RtErr.getPropNotObject, by simp [op_get_prop, vm_pop]⟩
    | undefined => exact ⟨RtErr.getPropNotObject, by simp [op_get_prop, vm_pop]⟩
    | null => exact ⟨RtErr.getPropNotObject, by simp [op_get_prop, vm_pop]⟩
  · intro a rc ps hv hlook
    subst hv
    simp only at hlook
    refine ⟨{ stack := (prop_lookup ps name).getD Value.undefined :: rest,
              envs := envs, callStack := cs,
              heap := gc_inc_val
                (val_free_heap
                  (gc_inc_val hp ((prop_lookup ps name).getD Value.undefined))
                  (Value.objectRef a))
                ((prop_lookup ps name).getD Value.undefined),
              nextAddr := na, output := out }, ?_, rfl⟩
    simp only [op_get_prop, vm_pop]
    rw [hlook]
    simp [vm_push, show ¬ rest.length ≥ 64 by omega]

/-- A state whose stack top is an object with property `a = 5`. -/
def stateGetProp : VMState :=
  { stack := [Value.objectRef 0], envs := [[]], callStack := [],
    heap := [(0, HeapObj.obj 1 [(nameA, Value.number 5)])], nextAddr := 1,
    output := [] }

/-- Witness for C7: reading property `a` of `{a: 5}` pushes `5`. -/
theorem c7_get_prop_witness :
    ∃ s', op_get_prop nameA stateGetProp = .ok s' ∧
      s'.stack = [Value.number 5] := by
  have h := (c7_get_prop nameA stateGetProp (Value.objectRef 0) [] rfl
    (by decide)).2 0 1 [(nameA, Value.number 5)] rfl (by decide)
  simpa [prop_lookup] using h

/-! ### Heap bookkeeping lemmas for the `OP_ADD` theorem -/

lemma lookup_cons_self (a : Nat) (o : HeapObj) (h : Heap) :
    List.lookup a ((a, o) :: h) = some o := by
  simp [List.lookup]

lemma lookup_cons_ne {a k : Nat} (hne : a ≠ k) (o : HeapObj) (h : Heap) :
    List.lookup a ((k, o) :: h) = List.lookup a h := by
  have hbe : (a == k) = false := by simp [hne]
  simp [List.lookup, hbe]

lemma lookup_mem {h : Heap} {a : Nat} {o : HeapObj}
    (hl : List.lookup a h = some o) : (a, o) ∈ h := by
  induction h with
  | nil => simp [List.lookup] at hl
  | cons p t ih =>
    obtain ⟨k, w⟩ := p
    by_cases hk : a = k
    · subst hk
      rw [lookup_cons_self] at hl
      obtain rfl : w = o := by injection hl
      simp
    · rw [lookup_cons_ne hk] at hl
      exact List.mem_cons_of_mem _ (ih hl)

lemma lookup_update_self {h : Heap} {a : Nat} {o o' : HeapObj}
    (hl : List.lookup a h = some o') :
    List.lookup a (heap_update h a o) = some o := by
  induction h with
  | nil => simp [List.lookup] at hl
  | cons p t ih =>
    obtain ⟨k, w⟩ := p
    by_cases hk : a = k
    · have hstep : heap_update ((k, w) :: t) a o = (a, o) :: heap_update t a o := by
        simp [heap_update, hk.symm]
      rw [hstep, lookup_cons_self]
    · rw [lookup_cons_ne hk] at hl
      have hk' : ¬ (k = a) := fun e => hk e.symm
      have hstep : heap_update ((k, w) :: t) a o = (k, w) :: heap_update t a o := by
        simp [heap_update, hk']
      rw [hstep, lookup_cons_ne hk]
      exact ih hl

lemma lookup_update_ne {h : Heap} {a n : Nat} {o : HeapObj} (hne : n ≠ a) :
    List.lookup n (heap_update h a o) = List.lookup n h := by
  induction h with
  | nil => rfl
  | cons p t ih =>
    obtain ⟨k, w⟩ := p
    by_cases hk : k = a
    · have hnk : n ≠ k := by rw [hk]; exact hne
      have hstep : heap_update ((k, w) :: t) a o = (a, o) :: heap_update t a o := by
        simp [heap_update, hk]
      rw [hstep, lookup_cons_ne hne, lookup_cons_ne hnk]
      exact ih
    · have hstep : heap_update ((k, w) :: t) a o = (k, w) :: heap_update t a o := by
        simp [heap_update, hk]
      rw [hstep]
      by_cases hnk : n = k
      · subst hnk
        rw [lookup_cons_self, lookup_cons_self]
      · rw [lookup_cons_ne hnk, lookup_cons_ne hnk]
        exact ih

lemma lookup_remove_ne {h : Heap} {a n : Nat} (hne : n ≠ a) :
    List.lookup n (heap_remove h a) = List.lookup n h := by
  induction h with
  | nil => rfl
  | cons p t ih =>
    obtain ⟨k, w⟩ := p
    by_cases hk : k = a
    · have hnk : n ≠ k := by rw [hk]; exact hne
      have hstep : heap_remove ((k, w) :: t) a = heap_remove t a := by
        simp [heap_remove, hk]
      rw [hstep, lookup_cons_ne hnk]
      exact ih
    · have hstep : heap_remove ((k, w) :: t) a = (k, w) :: heap_remove t a := by
        simp [heap_remove, hk]
      rw [hstep]
      by_cases hnk : n = k
      · subst hnk
        rw [lookup_cons_self, lookup_cons_self]
      · rw [lookup_cons_ne hnk, lookup_cons_ne hnk]
        exact ih

/-- No property reference anywhere in the heap points at address `n`. -/
def heap_refs_ne (h : Heap) (n : Nat) : Prop :=
  ∀ p ∈ h, ∀ x ∈ hobj_refs p.2, x ≠ n

lemma refs_ne_remove {h : Heap} {a n : Nat} (hh : heap_refs_ne h n) :
    heap_refs_ne (heap_remove h a) n := by
  intro p hp
  exact hh p (List.mem_of_mem_filter hp)

lemma refs_ne_update {h : Heap} {a n : Nat} {o : HeapObj}
    (ho : ∀ x ∈ hobj_refs o, x ≠ n) (hh : heap_refs_ne h n) :
    heap_refs_ne (heap_update h a o) n := by
  intro p hp
  obtain ⟨q, hq, hfq⟩ := List.mem_map.mp hp
  by_cases h1 : q.1 = a
  · rw [if_pos h1] at hfq
    rw [← hfq]
    exact ho
  · rw [if_neg h1] at hfq
    rw [← hfq]
    exact hh q hq

lemma refs_ne_cons {h : Heap} {a n : Nat} {o : HeapObj}
    (ho : ∀ x ∈ hobj_refs o, x ≠ n) (hh : heap_refs_ne h n) :
    heap_refs_ne ((a, o) :: h) n := by
  intro p hp
  rcases List.mem_cons.mp hp with h1 | h2
  · subst h1; exact ho
  · exact hh p h2

lemma gcdw_preserve (n : Nat) : ∀ (fuel : Nat) (h : Heap) (ws : List Nat),
    (∀ a ∈ ws, a ≠ n) → heap_refs_ne h n →
    List.lookup n (gc_dec_work_f fuel h ws) = List.lookup n h ∧
    heap_refs_ne (gc_dec_work_f fuel h ws) n := by
  intro fuel
  induction fuel with
  | zero => intro h ws _ hh; exact ⟨rfl, hh⟩
  | succ f ih =>
    intro h ws hw hh
    match ws with
    | [] => exact ⟨rfl, hh⟩
    | a :: rest =>
      have ha : a ≠ n := hw a (by simp)
      have hrest : ∀ x ∈ rest, x ≠ n := fun x hx => hw x (by simp [hx])
      cases hl : List.lookup a h with
      | none =>
        simp only [gc_dec_work_f, hl]
        exact ih h rest hrest hh
      | some o =>
        cases o with
        | str rc schars =>
          simp only [gc_dec_work_f, hl]
          by_cases hz : rc - 1 = 0
          · rw [if_pos hz]
            obtain ⟨h1, h2⟩ := ih (heap_remove h a) rest hrest (refs_ne_remove hh)
            exact ⟨by rw [h1, lookup_remove_ne (Ne.symm ha)], h2⟩
          · rw [if_neg hz]
            obtain ⟨h1, h2⟩ := ih (heap_update h a (.str (rc - 1) schars)) rest
              hrest (refs_ne_update (by simp [hobj_refs]) hh)
            exact ⟨by rw [h1, lookup_update_ne (Ne.symm ha)], h2⟩
        | obj rc ps =>
          simp only [gc_dec_work_f, hl]
          have hmem : (a, HeapObj.obj rc ps) ∈ h := lookup_mem hl
          by_cases hz : rc - 1 = 0
          · rw [if_pos hz]
            have hw2 : ∀ x ∈ hobj_prop_addrs ps ++ rest, x ≠ n := by
              intro x hx
              rcases List.mem_append.mp hx with h1 | h2
              · exact hh _ hmem x (by simpa [hobj_refs] using h1)
              · exact hrest x h2
            obtain ⟨h1, h2⟩ := ih (heap_remove h a) _ hw2 (refs_ne_remove hh)
            exact ⟨by rw [h1, lookup_remove_ne (Ne.symm ha)], h2⟩
          · rw [if_neg hz]
            have hps : ∀ x ∈ hobj_refs (HeapObj.obj (rc - 1) ps), x ≠ n := by
              intro x hx
              exact hh _ hmem x (by simpa [hobj_refs] using hx)
            obtain ⟨h1, h2⟩ := ih (heap_update h a (.obj (rc - 1) ps)) rest
              hrest (refs_ne_update hps hh)
            exact ⟨by rw [h1, lookup_update_ne (Ne.symm ha)], h2⟩

lemma val_free_preserve {h : Heap} {v : Value} {n : Nat}
    (hv : ∀ x, ref_addr v = some x → x ≠ n) (hh : heap_refs_ne h n) :
    List.lookup n (val_free_heap h v) = List.lookup n h ∧
    heap_refs_ne (val_free_heap h v) n := by
  cases hra : ref_addr v with
  | none =>
    constructor
    · simp [val_free_heap, hra]
    · simpa [val_free_heap, hra] using hh
  | some a =>
    simp only [val_free_heap, hra, gc_dec_ref]
    refine gcdw_preserve n _ h [a] ?_ hh
    intro x hx
    simp at hx
    subst hx
    exact hv _ hra

lemma num_of_eq_some {v : Value} {x : Rat} (h : num_of v = some x) :
    v = .number x := by
  cases v <;> simp_all [num_of]

theorem c5_add_coercion (s : VMState) (a b : Value) (rest : List Value)
    (hs : s.stack = b :: a :: rest) (hlen : s.stack.length ≤ 64) :
    (∀ x y, num_of a = some x → num_of b = some y →
      ∃ s', op_add s = .ok s' ∧ s'.stack = Value.number (x + y) :: rest) ∧
    ((is_string_v a || is_string_v b) = true →
      (∀ x, ref_addr a = some x → x ≠ s.nextAddr) →
      (∀ x, ref_addr b = some x → x ≠ s.nextAddr) →
      heap_refs_ne s.heap s.nextAddr →
      ∀ ta tb, add_text s.heap a = some ta → add_text s.heap b = some tb →
      ∃ s', op_add s = .ok s' ∧
        s'.stack = Value.stringRef s.nextAddr :: rest ∧
        List.lookup s.nextAddr s'.heap = some (HeapObj.str 2 (ta ++ tb))) ∧
    ((num_of a = none ∨ num_of b = none) →
      is_string_v a = false → is_string_v b = false →
      op_add s = .error RtErr.addTypeMismatch) := by
  obtain ⟨stk, envs, cs, hp, na, out⟩ := s
  simp only at hs
  subst hs
  simp only [List.length_cons] at hlen
  have hpushlen : ¬ rest.length ≥ 64 := by omega
  refine ⟨?_, ?_, ?_⟩
  · -- both numbers
    intro x y hax hby
    obtain rfl := num_of_eq_some hax
    obtain rfl := num_of_eq_some hby
    refine ⟨⟨Value.number (x + y) :: rest, envs, cs, hp, na, out⟩, ?_, rfl⟩
    simp [op_add, vm_pop, num_of, vm_push, hpushlen, gc_inc_val, ref_addr,
      val_free_heap]
  · -- string coercion
    intro hstr han hbn hh ta tb hta htb
    simp only at hta htb hh han hbn ⊢
    -- the coercion result state
    have hcoerce :
        op_add_coerce ⟨rest, envs, cs, hp, na, out⟩ a b =
          .ok ⟨Value.stringRef na :: rest, envs, cs,
            val_free_heap (val_free_heap
              (gc_inc_val ((na, HeapObj.str 1 (ta ++ tb)) :: hp)
                (Value.stringRef na)) a) b,
            na + 1, out⟩ := by
      simp only [op_add_coerce, hstr, if_true]
      rw [hta, htb]
      simp [vm_push, hpushlen]
    have hnum : num_of a = none ∨ num_of b = none := by
      rcases Bool.or_eq_true_iff.mp hstr with h1 | h2
      · left; cases a <;> simp_all [is_string_v, num_of]
      · right; cases b <;> simp_all [is_string_v, num_of]
    have hrun : op_add ⟨b :: a :: rest, envs, cs, hp, na, out⟩ =
        op_add_coerce ⟨rest, envs, cs, hp, na, out⟩ a b := by
      rcases hnum with h1 | h2
      · simp [op_add, vm_pop, h1]
      · cases hna : num_of a with
        | none => simp [op_add, vm_pop, hna]
        | some x => simp [op_add, vm_pop, hna, h2]
    -- heap bookkeeping
    have hcons : List.lookup na ((na, HeapObj.str 1 (ta ++ tb)) :: hp) =
        some (HeapObj.str 1 (ta ++ tb)) := lookup_cons_self na _ hp
    have hinc : gc_inc_val ((na, HeapObj.str 1 (ta ++ tb)) :: hp)
        (Value.stringRef na) =
        heap_update ((na, HeapObj.str 1 (ta ++ tb)) :: hp) na
          (HeapObj.str 2 (ta ++ tb)) := by
      simp [gc_inc_val, gc_inc_ref, ref_addr, hcons]
    have hlook2 : List.lookup na (gc_inc_val
        ((na, HeapObj.str 1 (ta ++ tb)) :: hp) (Value.stringRef na)) =
        some (HeapObj.str 2 (ta ++ tb)) := by
      rw [hinc]
      exact lookup_update_self hcons
    have hrefs2 : heap_refs_ne (gc_inc_val
        ((na, HeapObj.str 1 (ta ++ tb)) :: hp) (Value.stringRef na)) na := by
      rw [hinc]
      exact refs_ne_update (by simp [hobj_refs])
        (refs_ne_cons (by simp [hobj_refs]) hh)
    obtain ⟨hla, hra2⟩ := val_free_preserve han hrefs2
    obtain ⟨hlb, _⟩ := val_free_preserve hbn hra2
    refine ⟨_, by rw [hrun]; exact hcoerce, rfl, ?_⟩
    simp only
    rw [hlb, hla, hlook2]
  · -- fatal combination
    intro hor hsa hsb
    have hco : ∀ s2 : VMState, op_add_coerce s2 a b =
        .error RtErr.addTypeMismatch := by
      intro s2
      simp [op_add_coerce, hsa, hsb]
    rcases hor with h1 | h2
    · simp [op_add, vm_pop, h1, hco]
    · cases hna : num_of a with
      | none => simp [op_add, vm_pop, hna, hco]
      | some x => simp [op_add, vm_pop, hna, h2, hco]

/-- A stack holding two strings (`"x"` below `"y"` on top) over a heap
where both live at addresses 0 and 1. -/
def stateAddStrings : VMState :=
  { stack := [Value.stringRef 1, Value.stringRef 0], envs := [[]],
    callStack := [],
    heap := [(0, HeapObj.str 1 nameX), (1, HeapObj.str 1 nameY)],
    nextAddr := 2, output := [] }

/-- Witness for C5: adding the strings `"x"` and `"y"` pushes a fresh
string whose heap text is `"xy"`. -/
theorem c5_add_coercion_witness :
    ∃ s', op_add stateAddStrings = .ok s' ∧
      s'.stack = [Value.stringRef 2] ∧
      List.lookup 2 s'.heap = some (HeapObj.str 2 (nameX ++ nameY)) := by
  have h := (c5_add_coercion stateAddStrings (Value.stringRef 0)
    (Value.stringRef 1) [] rfl (by decide)).2.1 (by decide)
    (by intro x hx; simp [ref_addr] at hx; subst hx; decide)
    (by intro x hx; simp [ref_addr] at hx; subst hx; decide)
    (by unfold heap_refs_ne; decide) nameX nameY (by decide) (by decide)
  simpa using h

/-! ### Lexer lemmas for the unterminated-comment claim -/

/-- Does the character list contain a closing star-slash pair? -/
def has_star_slash : List Char → Bool
  | [] => false
  | [_] => false
  | c1 :: c2 :: rest => (c1 == '*' && c2 == '/') || has_star_slash (c2 :: rest)

lemma hss_tail {c : Char} {rest : List Char}
    (h : has_star_slash (c :: rest) = false) : has_star_slash rest = false := by
  cases rest with
  | nil => rfl
  | cons c2 r2 =>
    simp only [has_star_slash, Bool.or_eq_false_iff] at h
    exact h.2

lemma peek_lt {l : Lexer} (h : lexer_peek l ≠ '\x00') :
    l.pos < l.source.length := by
  by_contra hge
  push_neg at hge
  have hnone : l.source[l.pos]? = none := List.getElem?_eq_none hge
  exact h (by simp [lexer_peek, List.getD, hnone])

lemma drop_peek {l : Lexer} (h : l.pos < l.source.length) :
    l.source.drop l.pos = lexer_peek l :: l.source.drop (l.pos + 1) := by
  have hsome : l.source[l.pos]? = some l.source[l.pos] :=
    List.getElem?_eq_getElem h
  rw [List.drop_eq_getElem_cons h]
  simp [lexer_peek, List.getD, hsome]

lemma bcm_unclosed : ∀ (fuel : Nat) (l : Lexer),
    l.source.length - l.pos < fuel →
    has_star_slash (l.source.drop l.pos) = false →
    (bcm_f fuel l).source = l.source ∧ lexer_peek (bcm_f fuel l) = '\x00' := by
  intro fuel
  induction fuel with
  | zero => intro l hf; omega
  | succ f ih =>
    intro l hf hnc
    by_cases h0 : lexer_peek l = '\x00'
    · refine ⟨?_, ?_⟩ <;> simp [bcm_f, h0]
    · have hlt : l.pos < l.source.length := peek_lt h0
      have hdrop := drop_peek hlt
      by_cases hstar : lexer_peek l = '*'
      · by_cases hsl : lexer_peek (lexer_consume l).2 = '/'
        · exfalso
          have hlt2 : l.pos + 1 < l.source.length := by
            have := peek_lt (l := (lexer_consume l).2) (by rw [hsl]; decide)
            simpa [lexer_consume] using this
          have hdrop2 : l.source.drop (l.pos + 1) =
              '/' :: l.source.drop (l.pos + 2) := by
            have h2 := drop_peek (l := (lexer_consume l).2)
              (by simpa [lexer_consume] using hlt2)
            rw [hsl] at h2
            simpa [lexer_consume] using h2
          rw [hstar] at hdrop
          rw [hdrop, hdrop2] at hnc
          simp [has_star_slash] at hnc
        · simp only [bcm_f, if_neg h0, if_pos hstar, if_neg hsl]
          have hf' : (lexer_consume l).2.source.length -
              (lexer_consume l).2.pos < f := by
            simp only [lexer_consume]
            omega
          have hnc' : has_star_slash
              ((lexer_consume l).2.source.drop (lexer_consume l).2.pos) = false := by
            rw [hdrop] at hnc
            simpa [lexer_consume] using hss_tail hnc
          exact ih (lexer_consume l).2 hf' hnc'
      · simp only [bcm_f, if_neg h0, if_neg hstar]
        have hf' : (lexer_consume l).2.source.length -
            (lexer_consume l).2.pos < f := by
          simp only [lexer_consume]
          omega
        have hnc' : has_star_slash
            ((lexer_consume l).2.source.drop (lexer_consume l).2.pos) = false := by
          rw [hdrop] at hnc
          simpa [lexer_consume] using hss_tail hnc
        exact ih (lexer_consume l).2 hf' hnc'

lemma swr_f_id {l : Lexer} (h : is_whitespace (lexer_peek l) = false) :
    ∀ fuel, swr_f fuel l = l := by
  intro fuel
  cases fuel <;> simp [swr_f, h]

lemma skip_ws_run_id {l : Lexer} (h : is_whitespace (lexer_peek l) = false) :
    skip_ws_run l = l := by
  simp [skip_ws_run, swr_f_id h]

/-- Claim C10 (confirmed): from any lexer state sitting on a `/*` whose
remaining input never contains a closing `*/`, `lexer_next_token`
silently scans to end-of-input and produces the end-of-input token (the
lexer has no error channel at all, so no lexical error can be raised). -/
theorem c10_unterminated_comment (l : Lexer)
    (h1 : lexer_peek l = '/')
    (h2 : l.source.getD (l.pos + 1) '\x00' = '*')
    (h3 : has_star_slash (l.source.drop (l.pos + 2)) = false) :
    (lexer_next_token l).1.type = TokenType.eof ∧
    (lexer_next_token l).1.lexeme = emptyText := by
  have hlt : l.pos < l.source.length := peek_lt (by rw [h1]; decide)
  have hlt2 : l.pos + 1 < l.source.length := by
    by_contra hge
    push_neg at hge
    rw [List.getD_eq_default _ _ hge] at h2
    exact absurd h2 (by decide)
  have hl3pos : ((lexer_consume (lexer_consume l).2).2).pos = l.pos + 2 := rfl
  have hl3src : ((lexer_consume (lexer_consume l).2).2).source = l.source := rfl
  obtain ⟨hbsrc, hbpeek⟩ :=
    bcm_unclosed (((lexer_consume (lexer_consume l).2).2).source.length + 1 -
        ((lexer_consume (lexer_consume l).2).2).pos)
      ((lexer_consume (lexer_consume l).2).2)
      (by rw [hl3src, hl3pos]; omega)
      (by rw [hl3src, hl3pos]; exact h3)
  have hrpeek : lexer_peek (skip_block_comment
      ((lexer_consume (lexer_consume l).2).2)) = '\x00' := hbpeek
  have hws : is_whitespace (lexer_peek l) = false := by rw [h1]; decide
  have hswr : skip_ws_run l = l := skip_ws_run_id hws
  have hpeek2 : lexer_peek (lexer_consume l).2 = '*' := h2
  have hwsr : is_whitespace (lexer_peek (skip_block_comment
      ((lexer_consume (lexer_consume l).2).2))) = false := by
    rw [hrpeek]; decide
  have hlsw : lexer_skip_whitespace l = skip_block_comment
      ((lexer_consume (lexer_consume l).2).2) := by
    rw [lexer_skip_whitespace]
    obtain ⟨g, hg⟩ : ∃ g, l.source.length + 1 - l.pos = g + 2 :=
      ⟨l.source.length - 1 - l.pos, by omega⟩
    rw [hg, show g + 2 = (g + 1) + 1 from rfl]
    simp only [lsw_f]
    rw [hswr, h1, hpeek2, skip_ws_run_id hwsr, hrpeek]
    simp
  constructor <;>
  · simp only [lexer_next_token]
    rw [hlsw, hrpeek]
    simp

/-- A source that opens a block comment and never closes it. -/
def srcComment : String := "/* x"

/-- Witness for C10 on the concrete source `/* x`. -/
theorem c10_unterminated_comment_witness :
    (lexer_next_token (lexer_make srcComment)).1.type = TokenType.eof ∧
    (lexer_next_token (lexer_make srcComment)).1.lexeme = emptyText :=
  c10_unterminated_comment (lexer_make srcComment) (by decide) (by decide)
    (by decide)
